import Mathlib

/-!
Verification of the cvs distributed command-execution core.

The development shallowly embeds:
* the Parallel Execution Engine (`Pssh`) of `cvs/lib/parallel_ssh_lib.py`
  (that file ships only with its unit tests, so the engine is modelled from
  the specification, as marked on each definition);
* the container orchestrator and Docker runtime
  (`cvs/core/orchestrators/container.py`, `cvs/core/runtimes/docker.py`);
* the bare-metal MPI command builder (`cvs/core/orchestrators/baremetal.py`);
* the retry-with-cleanup decorator (`cvs/lib/retry.py`).

Remote side effects are represented by explicit oracles (per-host transport
outcomes, connectivity probes, command-result environments) passed to the
embedded operations, and the per-call event trace is returned so that the
theorems can speak about which actions ran.
-/

namespace PsshSpec

/-- Modelled from the spec: the two transport-level exception categories the
engine distinguishes, connection-refused-class failures and
read-timeout-class failures (spec section 4.1 / section 7 category (a)). -/
inductive PsshExc where
  | connError (msg : String)
  | timeout (msg : String)
deriving Repr, DecidableEq

/-- Modelled from the spec: the text of a transport exception, as interpolated
into per-host results. -/
def PsshExc.text : PsshExc → String
  | .connError m => m
  | .timeout m => m

/-- Modelled from the spec: the per-host outcome the multi-host transport
delivers for one call: the host, its decoded output lines, and the captured
transport exception if the host failed. -/
structure HostOutput where
  host : String
  lines : List String
  exc : Option PsshExc
deriving Repr, DecidableEq

/-- Modelled from the spec: the engine state of `Pssh` in
`cvs/lib/parallel_ssh_lib.py` (absent from the sources, only its unit tests
ship): the original construction host list, the current reachable and
unreachable host lists, and the construction-time `stop_on_errors` policy. -/
structure Pssh where
  host_list : List String
  reachable_hosts : List String
  unreachable_hosts : List String
  stop_on_errors : Bool
deriving Repr, DecidableEq

/-- Modelled from the spec: a freshly constructed engine considers every
supplied host reachable and no host unreachable. -/
def Pssh.init (hosts : List String) (stop_on_errors : Bool) : Pssh :=
  { host_list := hosts
    reachable_hosts := hosts
    unreachable_hosts := []
    stop_on_errors := stop_on_errors }

/-- Modelled from the spec: the per-host result text under
`stop_on_errors=false`.  A clean host gets its joined output lines.  A host
whose probe confirms unreachability gets the failure sentinel: for a
connection-class exception the text plus a blank line plus
`ABORT: Host Unreachable Error`; for a timeout-class exception an extra
`ABORT: Timeout Error in Host: <host>` line precedes it.  If the probe says
the host is still reachable the raw exception text is used. -/
def hostResult (probe : String → Bool) (o : HostOutput) : String :=
  match o.exc with
  | none => String.intercalate "\n" o.lines
  | some e =>
    if probe o.host then
      match e with
      | .connError m => m ++ "\n\nABORT: Host Unreachable Error"
      | .timeout m =>
          m ++ "\nABORT: Timeout Error in Host: " ++ o.host ++
            "\n\nABORT: Host Unreachable Error"
    else e.text

/-- Modelled from the spec: the hosts of this call that failed with a
transport exception and whose reachability probe confirmed them dead; these
are permanently pruned. -/
def prunedHosts (probe : String → Bool) (outs : List HostOutput) : List String :=
  (outs.filter fun o => o.exc.isSome && probe o.host).map (fun o => o.host)

/-- Modelled from the spec: pruning removes the given hosts from the
reachable list and appends them to the unreachable list. -/
def Pssh.prune (st : Pssh) (hs : List String) : Pssh :=
  { st with
      reachable_hosts := st.reachable_hosts.filter (fun h => decide (h ∉ hs))
      unreachable_hosts := st.unreachable_hosts ++ hs }

/-- The post-state and result of one `exec`-style call. -/
structure ExecResult where
  state : Pssh
  res : Except PsshExc (List (String × String))
deriving Repr

/-- Modelled from the spec: one `exec` call, given the per-host transport
outcomes `outs` of this fan-out and the connectivity probe.  Under
`stop_on_errors=true` any single-host transport exception propagates to the
caller, no result map is built, and no probing or pruning runs.  Under
`stop_on_errors=false` exceptions are captured per host, every contacted
host gets a result entry, and probe-confirmed dead hosts are pruned. -/
def Pssh.exec (st : Pssh) (outs : List HostOutput) (probe : String → Bool) :
    ExecResult :=
  if st.stop_on_errors then
    match outs.findSome? (fun o => o.exc) with
    | some e => { state := st, res := .error e }
    | none =>
        { state := st
          res := .ok (outs.map fun o => (o.host, String.intercalate "\n" o.lines)) }
  else
    { state := st.prune (prunedHosts probe outs)
      res := .ok (outs.map fun o => (o.host, hostResult probe o)) }

/-- Modelled from the spec: `exec_cmd_list` pairs `cmd_list[i]` with host `i`
and otherwise processes transport outcomes exactly like `exec`; the command
payload does not influence result processing or pruning. -/
def Pssh.exec_cmd_list (st : Pssh) (cmd_list : List String)
    (outs : List HostOutput) (probe : String → Bool) : ExecResult :=
  st.exec outs probe

/-- Modelled from the spec: the transport behaviour backing one call — the
output lines, optional exception, and probe verdict per host.  `runCalls`
contacts exactly the currently reachable hosts, one outcome each. -/
structure CallBehavior where
  lines : String → List String
  exc : String → Option PsshExc
  probe : String → Bool

/-- The per-host outputs of one call: one `HostOutput` per currently
reachable host. -/
def callOutputs (st : Pssh) (b : CallBehavior) : List HostOutput :=
  st.reachable_hosts.map fun h => { host := h, lines := b.lines h, exc := b.exc h }

/-- Run a sequence of `exec`-style calls, threading the engine state. -/
def runCalls (st : Pssh) : List CallBehavior → Pssh
  | [] => st
  | b :: rest => runCalls ((st.exec (callOutputs st b) b.probe).state) rest

/-- The host-set integrity invariant of one engine instance: reachable and
unreachable hosts together are a permutation of the construction list, have
no duplicates, and are disjoint. -/
def Integrity (H : List String) (st : Pssh) : Prop :=
  (st.reachable_hosts ++ st.unreachable_hosts).Perm H ∧
  (st.reachable_hosts ++ st.unreachable_hosts).Nodup ∧
  st.reachable_hosts.Disjoint st.unreachable_hosts

/-- A sample two-host engine with `stop_on_errors=true`, used by witnesses. -/
def sampleTrue : Pssh := Pssh.init ["host1", "host2"] true

/-- A sample two-host engine with `stop_on_errors=false`, used by witnesses. -/
def sampleFalse : Pssh :=
  { host_list := ["host1", "host2"]
    reachable_hosts := ["host1", "host2"]
    unreachable_hosts := []
    stop_on_errors := false }

/-- Sample transport outcomes: `host1` succeeds, `host2` fails with a
connection-class exception. -/
def sampleOuts : List HostOutput :=
  [{ host := "host1", lines := ["success output"], exc := none },
   { host := "host2", lines := [], exc := some (.connError "Connection failed") }]

/-- Sample call behaviour: every host yields no output, `host2` fails with a
connection-class exception, and the probe confirms `host2` unreachable. -/
def sampleBehavior : CallBehavior :=
  { lines := fun _ => []
    exc := fun h => if h == "host2" then some (.connError "Connection failed") else none
    probe := fun h => h == "host2" }

end PsshSpec

namespace CvsContainer

/-- Python exception kinds the embedded container code can raise. -/
inductive PyExc where
  | attributeError (msg : String)
  | runtimeError (msg : String)
  | keyError (msg : String)
deriving Repr, DecidableEq

/-- A minimal Python value universe for dictionary-style accesses. -/
inductive PyVal where
  | pyNone
  | pyInt (i : Int)
  | pyStr (s : String)
deriving Repr, DecidableEq

/-- The per-host record of a detailed engine exec call:
`{output: string, exit_code: int}` (spec section 3). -/
structure DetailedRes where
  output : String
  exit_code : Int
deriving Repr, DecidableEq

/-- A transport command issued by the orchestrator or runtime:
on all hosts, on the head host, or on one named host. -/
inductive SshCall where
  | allHosts (cmd : String)
  | headHost (cmd : String)
  | onHost (host : String) (cmd : String)
deriving Repr, DecidableEq

/-- The remote-cluster oracle: per-host results of the non-detailed and
detailed engine exec calls, keyed by the command string, plus the
success verdict of the runtime launch path (not needed by the claims). -/
structure ClusterEnv where
  allExec : String → List (String × String)
  allExecDetailed : String → List (String × DetailedRes)
  runtimeSetup : String → Bool

/-- `container.py` container sub-config: the keys the embedded methods read. -/
structure ContainerConfig where
  enabled : Bool
  launch : Bool
  image : Option String
  name : Option String
deriving Repr, DecidableEq

/-- The mutable container-orchestrator state: its container sub-config and
the `container_id` tracking the running container name (`None` before a
successful `setup_containers` and after teardown). -/
structure COrch where
  container_config : ContainerConfig
  container_id : Option String
deriving Repr, DecidableEq

/-- `container.py` `sanitize_container_name`: replace every character that is
not alphanumeric or underscore with underscore. -/
def sanitize_container_name (image_name : String) : String :=
  String.map (fun c => if c.isAlphanum || c = '_' then c else '_') image_name

/-- `container.py` `get_container_name`: the configured name if present and
non-empty (Python falsy check), else `<local-user>_<sanitized-image>`. -/
def get_container_name (cfg : ContainerConfig) (image : String)
    (local_user : String) : String :=
  let configured := cfg.name.getD ""
  if configured = "" then local_user ++ "_" ++ sanitize_container_name image
  else configured

/-- Python attribute call `value.get(key)` where `value` is one host entry of
a NON-detailed engine exec result.  Non-detailed exec returns a plain string
per host (spec section 6), and `str` has no `get` method, so this raises
`AttributeError` — it never produces a value. -/
def strGet (s : String) (key : String) : Except PyExc PyVal :=
  .error (.attributeError ("str object has no attribute get (" ++ key ++ ")"))

/-- Render a `PyVal` roughly the way the f-string in the failure message
would; only reachable if `strGet` returned a value, which it cannot. -/
def pyValText : PyVal → String
  | .pyNone => "None"
  | .pyInt i => toString i
  | .pyStr s => s

/-- The loop body of `verify_containers_running` for one host entry:
`output.get('exit_code')` and `output.get('stdout','')` followed by the name
comparison.  Returns the failure annotation for this host, if any.  The
first `strGet` raises, so the rest of the body is dead code, kept to mirror
the source. -/
def verify_check_host (container_name host output : String) :
    Except PyExc (Option String) := do
  let ec ← strGet output "exit_code"
  if ec ≠ PyVal.pyInt 0 then
    pure (some (host ++ " (exit code " ++ pyValText ec ++ ")"))
  else do
    let sv ← strGet output "stdout"
    let running_name := (pyValText sv).trim
    if running_name ≠ container_name then
      pure (some (host ++ " (container not running, found: " ++ running_name ++ ")"))
    else
      pure none

/-- The `for host, output in result.items()` loop of
`verify_containers_running`, collecting `failed_hosts`. -/
def verifyFold (container_name : String) :
    List (String × String) → Except PyExc (List String)
  | [] => pure []
  | (host, output) :: rest => do
    let f ← verify_check_host container_name host output
    let fs ← verifyFold container_name rest
    pure (match f with | some msg => msg :: fs | none => fs)

/-- The docker-ps probe command of `verify_containers_running`
(`container.py` line 417). -/
def ps_cmd (container_name : String) : String :=
  "sudo docker ps --filter name=^" ++ container_name ++
    "$ --filter status=running --format \x27\x7b\x7b.Names\x7d\x7d\x27"

/-- `container.py` `verify_containers_running`: run the docker-ps probe via
the engine (non-detailed), scan the per-host results, and succeed (setting
`container_id`) exactly when no host failed. -/
def verify_containers_running (st : COrch) (env : ClusterEnv)
    (container_name : String) : Except PyExc (Bool × COrch) := do
  let result := env.allExec (ps_cmd container_name)
  let failed ← verifyFold container_name result
  if failed ≠ [] then
    pure (false, st)
  else
    pure (true, { st with container_id := some container_name })

/-- `container.py` `setup_containers` (the branch structure of lines
285-345): disabled config is a no-op success; `launch=true` derives the
container name (a missing `image` key raises `KeyError`), records it in
`container_id`, and delegates to the runtime launch; `launch=false` fails
when no image is configured, else verifies the expected container is
already running on every host. -/
def setup_containers (st : COrch) (env : ClusterEnv) (local_user : String) :
    Except PyExc (Bool × COrch) :=
  if !st.container_config.enabled then
    pure (true, st)
  else if st.container_config.launch then
    match st.container_config.image with
    | none => .error (.keyError "image")
    | some image =>
        let container_name := get_container_name st.container_config image local_user
        pure (env.runtimeSetup container_name,
          { st with container_id := some container_name })
  else
    match st.container_config.image with
    | none => pure (false, st)
    | some image =>
        verify_containers_running st env
          (get_container_name st.container_config image local_user)

/-- Python f-string rendering of an optional string: `None` renders as the
literal text `None`. -/
def pyFormatOpt : Option String → String
  | none => "None"
  | some s => s

/-- `docker.py` `DockerRuntime.exec`: wrap the command in `sudo docker exec`
and run it on all hosts, or host-by-host when an explicit subset is given. -/
def DockerRuntime_exec (container_name : Option String) (cmd : String)
    (hosts : Option (List String)) : List SshCall :=
  let exec_cmd := "sudo docker exec " ++ pyFormatOpt container_name ++ " " ++ cmd
  match hosts with
  | some hs => hs.map (fun h => SshCall.onHost h exec_cmd)
  | none => [SshCall.allHosts exec_cmd]

/-- `docker.py` `DockerRuntime.exec_on_head`: wrap the command in
`sudo docker exec` and run it on the head host.  No guard on
`container_name`: `None` is interpolated as the text `None`. -/
def DockerRuntime_exec_on_head (container_name : Option String)
    (cmd : String) : SshCall :=
  SshCall.headHost ("sudo docker exec " ++ pyFormatOpt container_name ++ " " ++ cmd)

/-- `container.py` `ContainerOrchestrator.exec` (lines 503-522): raises
`RuntimeError` while no container is running, else delegates to the
runtime. -/
def ContainerOrchestrator_exec (st : COrch) (cmd : String)
    (hosts : Option (List String)) : Except PyExc (List SshCall) :=
  match st.container_id with
  | none => .error (.runtimeError "No containers running. Call setup_containers() first.")
  | some cid => pure (DockerRuntime_exec (some cid) cmd hosts)

/-- `container.py` `ContainerOrchestrator.exec_on_head` (lines 524-535):
delegates directly to the runtime with the current `container_id`, with no
NOT_LAUNCHED guard. -/
def ContainerOrchestrator_exec_on_head (st : COrch) (cmd : String) : SshCall :=
  DockerRuntime_exec_on_head st.container_id cmd

/-- `docker.py` `DockerRuntime.teardown_containers` (lines 137-153): a falsy
name is a no-op success; otherwise force-remove the container by name on
every host (a detailed exec) and succeed iff every host exited 0.  Returns
the success flag together with the transport calls issued. -/
def DockerRuntime_teardown_containers (env : ClusterEnv)
    (container_name : String) : Bool × List SshCall :=
  if container_name = "" then (true, [])
  else
    let cmd := "sudo docker rm -f " ++ container_name ++ " 2>/dev/null || true"
    ((env.allExecDetailed cmd).all (fun p => p.2.exit_code == 0),
      [SshCall.allHosts cmd])

/-- The outcome of `teardown_containers`: its boolean result, the new
orchestrator state, and the transport calls issued. -/
structure TeardownOut where
  success : Bool
  state : COrch
  calls : List SshCall
deriving Repr, DecidableEq

/-- `container.py` `ContainerOrchestrator.teardown_containers` (lines
439-466): disabled config is a no-op success; a `launch=true` config is a
no-op success (the guard the source comments call the externally-managed
case); with `launch=false` and a recorded `container_id`, delegate to the
runtime force-removal and clear `container_id`. -/
def ContainerOrchestrator_teardown_containers (st : COrch) (env : ClusterEnv) :
    TeardownOut :=
  if !st.container_config.enabled then
    { success := true, state := st, calls := [] }
  else if st.container_config.launch then
    { success := true, state := st, calls := [] }
  else
    match st.container_id with
    | none => { success := true, state := st, calls := [] }
    | some cid =>
        let r := DockerRuntime_teardown_containers env cid
        { success := r.1, state := { st with container_id := none }, calls := r.2 }

/-- An externally-managed container config (`enabled=true`, `launch=false`)
used by the C5-C7 theorems and witnesses. -/
def externalCfg : ContainerConfig :=
  { enabled := true, launch := false, image := some "rocm/cvs:latest", name := some "c1" }

/-- Sample cluster oracle: the docker-ps probe reports the expected container
running on the single host, and the force-removal exits nonzero. -/
def sampleEnv : ClusterEnv :=
  { allExec := fun _ => [("host1", "c1")]
    allExecDetailed := fun _ => [("host1", { output := "", exit_code := 1 })]
    runtimeSetup := fun _ => true }

end CvsContainer

namespace CvsBaremetal

/-- One hostfile line as the specification states it: `"<host> slots=<n>"`
followed by the newline the builder appends per host. -/
def hostfile_line (ranks_per_host : Nat) (host : String) : String :=
  host ++ " slots=" ++ toString ranks_per_host ++ "\n"

/-- `baremetal.py` `build_mpi_cmd` lines 184-186: the hostfile payload is
accumulated left-to-right, appending `"<host> slots=<ranks_per_host>\n"` for
each host of `mpi_hosts`. -/
def host_file_params (mpi_hosts : List String) (ranks_per_host : Nat) : String :=
  mpi_hosts.foldl
    (fun acc host => acc ++ host ++ " slots=" ++ toString ranks_per_host ++ "\n") ""

/-- `baremetal.py` `build_mpi_cmd` lines 196-204: `--np` defaults to
`len(mpi_hosts) * ranks_per_host` when no explicit global rank count is
supplied, followed by the fixed flag set. -/
def mpi_runner_args (mpi_hosts : List String) (ranks_per_host : Nat)
    (no_of_global_ranks : Option Nat) : List String :=
  let n := match no_of_global_ranks with
    | none => mpi_hosts.length * ranks_per_host
    | some k => k
  ["--np", toString n, "--allow-run-as-root", "--hostfile", "/tmp/mpi_hosts.txt"]

/-- `baremetal.py` `get_mpi_command` lines 250-277: environment export
flags, the runner argument string, and the SSH tunneling options around the
rank command. -/
def get_mpi_command (ssh_port : Nat) (rank_cmd : String) (args : List String)
    (env_vars : List (String × String)) (mpi_install_dir : String) : String :=
  let env_args := env_vars.map (fun kv => "-x " ++ kv.1 ++ "=" ++ kv.2)
  let args_str := String.intercalate " " args
  let ssh_options := "--mca plm_rsh_agent ssh --mca plm_rsh_args \"-p " ++
    toString ssh_port ++
    " -o StrictHostKeyChecking=no -o UserKnownHostsFile=/dev/null\""
  mpi_install_dir ++ "/mpirun " ++ ssh_options ++ " " ++ args_str ++ " " ++
    String.intercalate " " env_args ++ " " ++ rank_cmd

/-- What `build_mpi_cmd` produces: the hostfile payload, the runner
arguments, the two commands run on the head host to write the hostfile, and
the assembled mpirun command string. -/
structure MpiBuild where
  hostfile_content : String
  runner_args : List String
  head_cmds : List String
  full_cmd : String
deriving Repr, DecidableEq

/-- `baremetal.py` `build_mpi_cmd` lines 158-211: build the hostfile payload,
remove and rewrite `/tmp/mpi_hosts.txt` on the head node, compute the runner
arguments (extended by `mpi_extra_args`), and assemble the full command. -/
def build_mpi_cmd (ssh_port : Nat) (rank_cmd : String) (mpi_hosts : List String)
    (ranks_per_host : Nat) (env_vars : List (String × String))
    (mpi_install_dir : String) (mpi_extra_args : List String)
    (no_of_global_ranks : Option Nat) : MpiBuild :=
  let hf := host_file_params mpi_hosts ranks_per_host
  let args := mpi_runner_args mpi_hosts ranks_per_host no_of_global_ranks ++
    mpi_extra_args
  { hostfile_content := hf
    runner_args := args
    head_cmds := ["sudo rm -f /tmp/mpi_hosts.txt",
      "bash -c \x27echo \"" ++ hf ++ "\" > /tmp/mpi_hosts.txt\x27"]
    full_cmd := get_mpi_command ssh_port rank_cmd args env_vars mpi_install_dir }

/-- The specification-side hostfile text: the concatenation of exactly one
`"<host> slots=<ranks_per_host>\n"` line per host of the list, in order. -/
def hostfile_concat (r : Nat) : List String → String
  | [] => ""
  | h :: t => hostfile_line r h ++ hostfile_concat r t

end CvsBaremetal

namespace CvsRetry

/-- `retry.py` retry configuration keys read by the decorator:
`cvs_retry_on_failure`, `cvs_max_retries`, `cvs_retry_delay_seconds`. -/
structure RetryConfig where
  cvs_retry_on_failure : Bool
  cvs_max_retries : Nat
  cvs_retry_delay_seconds : Nat
deriving Repr, DecidableEq

/-- What the wrapped operation does on one attempt: either it raises an
exception of its own, or it returns a result leaving the given records in
the shared failure signal `globals.error_list` (which the decorator reset to
empty at the start of the attempt). -/
inductive AttemptOutcome (alpha : Type) where
  | raises (e : String)
  | returns (result : alpha) (errors : List String)

/-- The observable actions of `_execute_with_retry`, in order: resetting the
shared failure signal, sleeping before a retry, invoking the wrapped
operation, and invoking the cleanup hook (which receives the call kwargs and
the retry config). -/
inductive RetryEvent (kappa : Type) where
  | reset
  | sleep (seconds : Nat)
  | call
  | cleanup (kwargs : kappa) (cfg : RetryConfig)
deriving Repr, DecidableEq

/-- The data carried by the aggregate retry-exhaustion exception:
`Exception(f"Test failed after {total_attempts} attempts with
{len(globals.error_list)} error(s): {globals.error_list}")`. -/
structure RetryFailure where
  total_attempts : Nat
  error_count : Nat
  errors : List String
deriving Repr, DecidableEq

/-- How a retry-wrapped call can fail: an exception raised by the wrapped
operation propagating unhandled, the aggregate retry-exhaustion exception,
or the implicit `None` fall-through of the attempt loop — unreachable, since
`total_attempts = max_retries + 1` is at least 1 and a failing final attempt
raises. -/
inductive CallFailure where
  | raised (e : String)
  | exhausted (f : RetryFailure)
  | noAttempt
deriving Repr, DecidableEq

/-- The events of the fixed prologue of attempt number `attempt` (0-based):
reset the failure signal, then sleep `cvs_retry_delay_seconds` when this is
a retry and the delay is positive (`retry.py` lines 73-80). -/
def attemptPrologue (kappa : Type) (cfg : RetryConfig) (attempt : Nat) :
    List (RetryEvent kappa) :=
  RetryEvent.reset ::
    (if attempt > 0 && cfg.cvs_retry_delay_seconds > 0 then
      [RetryEvent.sleep cfg.cvs_retry_delay_seconds]
    else [])

/-- `retry.py` `_execute_with_retry` attempt loop (lines 70-100), recursing
on the number of attempts left.  Each attempt: reset, optional sleep, invoke
the operation; an exception from the operation propagates at once; an empty
failure signal returns the result; a non-empty signal runs the cleanup hook
and then retries, or raises the aggregate failure if this was the last
attempt.  Returns the event trace and the outcome. -/
def retryGo {alpha kappa : Type} (outcome : Nat → AttemptOutcome alpha)
    (kw : kappa) (cfg : RetryConfig) (total : Nat) :
    Nat → Nat → List (RetryEvent kappa) × Except CallFailure alpha
  | _, 0 => ([], .error .noAttempt)
  | attempt, fuel + 1 =>
    let pre := attemptPrologue kappa cfg attempt
    match outcome attempt with
    | .raises e => (pre ++ [.call], .error (.raised e))
    | .returns r errs =>
      if errs.isEmpty then (pre ++ [.call], .ok r)
      else
        let withCleanup := pre ++ [.call, .cleanup kw cfg]
        if fuel = 0 then
          (withCleanup,
            .error (.exhausted
              { total_attempts := total, error_count := errs.length, errors := errs }))
        else
          let rest := retryGo outcome kw cfg total (attempt + 1) fuel
          (withCleanup ++ rest.1, rest.2)

/-- `retry.py` `_execute_with_retry` lines 62-68: `total_attempts` is
`cvs_max_retries + 1` and the loop starts at attempt 0. -/
def executeWithRetry {alpha kappa : Type} (outcome : Nat → AttemptOutcome alpha)
    (kw : kappa) (cfg : RetryConfig) :
    List (RetryEvent kappa) × Except CallFailure alpha :=
  retryGo outcome kw cfg (cfg.cvs_max_retries + 1) 0 (cfg.cvs_max_retries + 1)

/-- Running the wrapped operation exactly once, outside the retry loop: no
reset, no failure-signal inspection, no cleanup (`retry.py` lines 48-51). -/
def runOnce {alpha kappa : Type} (outcome : Nat → AttemptOutcome alpha) :
    List (RetryEvent kappa) × Except CallFailure alpha :=
  match outcome 0 with
  | .raises e => ([RetryEvent.call], .error (.raised e))
  | .returns r _ => ([RetryEvent.call], .ok r)

/-- `retry.py` `__call__` wrapper (lines 42-53): retry logic applies only
when a retry config is present with `cvs_retry_on_failure` set; otherwise
the operation runs once. -/
def retryWrapper {alpha kappa : Type} (outcome : Nat → AttemptOutcome alpha)
    (kw : kappa) (cfg : Option RetryConfig) :
    List (RetryEvent kappa) × Except CallFailure alpha :=
  match cfg with
  | some c =>
    if c.cvs_retry_on_failure then executeWithRetry outcome kw c
    else runOnce outcome
  | none => runOnce outcome

/-- Boolean recognizers for the event kinds, used to count trace events. -/
def RetryEvent.isCall {kappa : Type} : RetryEvent kappa → Bool
  | .call => true
  | _ => false

def RetryEvent.isCleanup {kappa : Type} : RetryEvent kappa → Bool
  | .cleanup _ _ => true
  | _ => false

def RetryEvent.isReset {kappa : Type} : RetryEvent kappa → Bool
  | .reset => true
  | _ => false

/-- The full trace of `count` consecutive failing attempts starting at
attempt number `start`: prologue, operation call, cleanup, per attempt. -/
def allFailTrace (kappa : Type) (cfg : RetryConfig) (kw : kappa) :
    Nat → Nat → List (RetryEvent kappa)
  | _, 0 => []
  | start, count + 1 =>
    (attemptPrologue kappa cfg start ++ [.call, .cleanup kw cfg]) ++
      allFailTrace kappa cfg kw (start + 1) count

end CvsRetry

namespace CvsRetry

/-- Sample failing operation: every attempt returns normally but records one
failure in the shared failure signal. -/
def sampleOutcomeFails : Nat → AttemptOutcome Nat :=
  fun _ => .returns 0 ["rccl bandwidth below threshold"]

/-- Sample raising operation: attempt 0 records a failure, every later
attempt raises an exception of its own. -/
def sampleOutcomeRaises : Nat → AttemptOutcome Nat
  | 0 => .returns 0 ["rccl bandwidth below threshold"]
  | _ + 1 => .raises "boom"

/-- Sample retry config: retry enabled, two retries, no delay. -/
def sampleRetryCfg : RetryConfig :=
  { cvs_retry_on_failure := true, cvs_max_retries := 2,
    cvs_retry_delay_seconds := 0 }

end CvsRetry

namespace PsshSpec

theorem findSome_exc_of_exists {outs : List HostOutput}
    (h : ∃ o ∈ outs, o.exc.isSome) :
    ∃ e, outs.findSome? (fun o => o.exc) = some e := by
  induction outs with
  | nil => simp at h
  | cons o rest ih =>
    rcases h with ⟨o2, ho2, hsome⟩
    rcases List.mem_cons.mp ho2 with rfl | hmem
    · rcases Option.isSome_iff_exists.mp hsome with ⟨e, he⟩
      exact ⟨e, by simp [List.findSome?_cons, he]⟩
    · cases he : o.exc with
      | some e => exact ⟨e, by simp [List.findSome?_cons, he]⟩
      | none =>
        rcases ih ⟨o2, hmem, hsome⟩ with ⟨e, hfind⟩
        exact ⟨e, by simp [List.findSome?_cons, he, hfind]⟩

/-- Claim C1: with `stop_on_errors=true`, a transport exception on any host
makes `exec` (and `exec_cmd_list`) propagate an exception to the caller with
no result map at all, the host sets are untouched (no pruning), and the
connectivity probe is irrelevant (no reachability probing runs). -/
theorem stop_on_errors_true_propagates (st : Pssh) (outs : List HostOutput)
    (probe probe2 : String → Bool) (cmd_list : List String)
    (hso : st.stop_on_errors = true)
    (hexc : ∃ o ∈ outs, o.exc.isSome) :
    (∃ e, st.exec outs probe = { state := st, res := .error e }) ∧
    (st.exec outs probe).state = st ∧
    st.exec outs probe = st.exec outs probe2 ∧
    st.exec_cmd_list cmd_list outs probe = st.exec outs probe := by
  rcases findSome_exc_of_exists hexc with ⟨e, hfind⟩
  refine ⟨⟨e, ?_⟩, ?_, ?_, ?_⟩
  · simp [Pssh.exec, hso, hfind]
  · simp [Pssh.exec, hso, hfind]
  · simp [Pssh.exec, hso, hfind]
  · rfl

theorem stop_on_errors_true_propagates_witness :
    sampleTrue.stop_on_errors = true ∧
    (∃ o ∈ sampleOuts, o.exc.isSome) ∧
    (∃ e, sampleTrue.exec sampleOuts (fun _ => true) =
      { state := sampleTrue, res := .error e }) := by
  refine ⟨rfl, by decide, ?_⟩
  exact (stop_on_errors_true_propagates sampleTrue sampleOuts
    (fun _ => true) (fun _ => false) ["echo hello"] rfl (by decide)).1

/-- Claim C2: with `stop_on_errors=false`, `exec` and `exec_cmd_list` never
raise: they return a result map with exactly one entry per host requested in
the call (the current reachable set), no matter how many hosts failed. -/
theorem no_stop_on_errors_full_result_map (st : Pssh) (outs : List HostOutput)
    (probe : String → Bool) (cmd_list : List String)
    (hso : st.stop_on_errors = false)
    (hreq : outs.map (fun o => o.host) = st.reachable_hosts) :
    ∃ m, (st.exec outs probe).res = .ok m ∧
      m.map Prod.fst = st.reachable_hosts ∧
      m.length = st.reachable_hosts.length ∧
      (st.exec_cmd_list cmd_list outs probe).res = .ok m := by
  refine ⟨outs.map fun o => (o.host, hostResult probe o), ?_, ?_, ?_, ?_⟩
  · simp [Pssh.exec, hso]
  · simpa [List.map_map, Function.comp] using hreq
  · simp [← hreq]
  · simp [Pssh.exec_cmd_list, Pssh.exec, hso]

theorem no_stop_on_errors_full_result_map_witness :
    sampleFalse.stop_on_errors = false ∧
    sampleOuts.map (fun o => o.host) = sampleFalse.reachable_hosts ∧
    (∃ m, (sampleFalse.exec sampleOuts (fun _ => false)).res = .ok m ∧
      m.map Prod.fst = sampleFalse.reachable_hosts ∧
      m.length = sampleFalse.reachable_hosts.length ∧
      (sampleFalse.exec_cmd_list ["echo hello", "echo hello"] sampleOuts
        (fun _ => false)).res = .ok m) :=
  ⟨rfl, by decide,
    no_stop_on_errors_full_result_map sampleFalse sampleOuts
      (fun _ => false) ["echo hello", "echo hello"] rfl (by decide)⟩

end PsshSpec

namespace PsshSpec

theorem filter_mem_of_sublist {P l : List String} (hsub : P.Sublist l)
    (hnd : l.Nodup) : l.filter (fun a => decide (a ∈ P)) = P := by
  induction hsub with
  | slnil => simp
  | cons a hs ih =>
    rename_i P2 l2
    have hnd2 : l2.Nodup := (List.nodup_cons.mp hnd).2
    have hna : a ∉ l2 := (List.nodup_cons.mp hnd).1
    have hnp : a ∉ P2 := fun hmem => hna (hs.subset hmem)
    simp only [List.filter_cons, decide_eq_true_eq]
    rw [if_neg (by simpa using hnp)]
    exact ih hnd2
  | cons₂ a hs ih =>
    rename_i P2 l2
    have hnd2 : l2.Nodup := (List.nodup_cons.mp hnd).2
    have hna : a ∉ l2 := (List.nodup_cons.mp hnd).1
    simp only [List.filter_cons, decide_eq_true_eq]
    rw [if_pos (List.mem_cons_self a P2)]
    have hcongr : l2.filter (fun x => decide (x ∈ a :: P2)) =
        l2.filter (fun x => decide (x ∈ P2)) := by
      apply List.filter_congr
      intro x hx
      have hxa : x ≠ a := fun h => hna (h ▸ hx)
      simp [List.mem_cons, hxa]
    rw [hcongr, ih hnd2]

theorem prunedHosts_sublist (probe : String → Bool) (outs : List HostOutput) :
    (prunedHosts probe outs).Sublist (outs.map fun o => o.host) := by
  show ((outs.filter fun o => o.exc.isSome && probe o.host).map
    (fun o => o.host)).Sublist (outs.map fun o => o.host)
  exact (List.filter_sublist outs).map (fun o => o.host)

theorem mem_prunedHosts_probe {probe : String → Bool} {outs : List HostOutput}
    {h : String} (hmem : h ∈ prunedHosts probe outs) : probe h = true := by
  simp only [prunedHosts, List.mem_map, List.mem_filter] at hmem
  rcases hmem with ⟨o, ⟨_, hq⟩, rfl⟩
  simp only [Bool.and_eq_true] at hq
  exact hq.2

theorem prune_integrity {H : List String} {st : Pssh} (hI : Integrity H st)
    {P : List String} (hsub : P.Sublist st.reachable_hosts) :
    Integrity H (st.prune P) := by
  have hndr : st.reachable_hosts.Nodup := hI.2.1.of_append_left
  have hfil : st.reachable_hosts.filter (fun a => decide (a ∈ P)) = P :=
    filter_mem_of_sublist hsub hndr
  have hnot : (st.reachable_hosts.filter fun a => !decide (a ∈ P)) =
      st.reachable_hosts.filter (fun h => decide (h ∉ P)) := by
    apply List.filter_congr
    intro x _
    simp
  have hbase : List.Perm
      (st.reachable_hosts.filter (fun a => decide (a ∈ P)) ++
        st.reachable_hosts.filter (fun h => decide (h ∉ P)))
      st.reachable_hosts := by
    have h0 := List.filter_append_perm (fun a => decide (a ∈ P)) st.reachable_hosts
    rwa [hnot] at h0
  have hperm1 : List.Perm
      (st.reachable_hosts.filter (fun h => decide (h ∉ P)) ++ P)
      st.reachable_hosts := by
    have h2 := List.Perm.trans (List.perm_append_comm) hbase
    rwa [hfil] at h2
  have hperm : List.Perm
      ((st.prune P).reachable_hosts ++ (st.prune P).unreachable_hosts)
      (st.reachable_hosts ++ st.unreachable_hosts) := by
    show List.Perm
      (st.reachable_hosts.filter (fun h => decide (h ∉ P)) ++
        (st.unreachable_hosts ++ P)) _
    have h1 : List.Perm
        (st.reachable_hosts.filter (fun h => decide (h ∉ P)) ++
          (st.unreachable_hosts ++ P))
        (st.reachable_hosts.filter (fun h => decide (h ∉ P)) ++
          (P ++ st.unreachable_hosts)) :=
      List.Perm.append_left _ List.perm_append_comm
    have h3 : List.Perm
        ((st.reachable_hosts.filter (fun h => decide (h ∉ P)) ++ P) ++
          st.unreachable_hosts)
        (st.reachable_hosts ++ st.unreachable_hosts) :=
      hperm1.append_right _
    refine h1.trans ?_
    rw [← List.append_assoc]
    exact h3
  have hndp : ((st.prune P).reachable_hosts ++ (st.prune P).unreachable_hosts).Nodup :=
    hperm.symm.nodup hI.2.1
  exact ⟨hperm.trans hI.1, hndp, List.disjoint_of_nodup_append hndp⟩

theorem step_integrity {H : List String} {st : Pssh} (b : CallBehavior)
    (hI : Integrity H st) :
    Integrity H (st.exec (callOutputs st b) b.probe).state ∧
    (∀ h ∈ st.unreachable_hosts,
      h ∈ (st.exec (callOutputs st b) b.probe).state.unreachable_hosts) := by
  by_cases hso : st.stop_on_errors
  · constructor
    · cases hfind : (callOutputs st b).findSome? (fun o => o.exc) with
      | some e => simpa [Pssh.exec, hso, hfind] using hI
      | none => simpa [Pssh.exec, hso, hfind] using hI
    · intro h hmem
      cases hfind : (callOutputs st b).findSome? (fun o => o.exc) with
      | some e => simpa [Pssh.exec, hso, hfind] using hmem
      | none => simpa [Pssh.exec, hso, hfind] using hmem
  · have hhosts : (callOutputs st b).map (fun o => o.host) = st.reachable_hosts := by
      unfold callOutputs
      rw [List.map_map]
      exact List.map_id st.reachable_hosts
    have hsub : (prunedHosts b.probe (callOutputs st b)).Sublist st.reachable_hosts :=
      hhosts ▸ prunedHosts_sublist b.probe (callOutputs st b)
    constructor
    · simpa [Pssh.exec, hso] using prune_integrity hI hsub
    · intro h hmem
      simp only [Pssh.exec, hso, if_false, Bool.false_eq_true]
      exact List.mem_append_left _ hmem

theorem runCalls_integrity {H : List String} :
    ∀ (calls : List CallBehavior) (st : Pssh), Integrity H st →
      Integrity H (runCalls st calls) ∧
      (∀ h ∈ st.unreachable_hosts, h ∈ (runCalls st calls).unreachable_hosts) := by
  intro calls
  induction calls with
  | nil => exact fun st hI => ⟨hI, fun h hm => hm⟩
  | cons b rest ih =>
    intro st hI
    have hstep := step_integrity b hI
    have hrest := ih _ hstep.1
    exact ⟨hrest.1, fun h hm => hrest.2 h (hstep.2 h hm)⟩

theorem runCalls_append (st : Pssh) (l₁ l₂ : List CallBehavior) :
    runCalls st (l₁ ++ l₂) = runCalls (runCalls st l₁) l₂ := by
  induction l₁ generalizing st with
  | nil => rfl
  | cons b rest ih => simp [runCalls, ih]

theorem init_integrity {H : List String} (hnd : H.Nodup) (so : Bool) :
    Integrity H (Pssh.init H so) := by
  refine ⟨by simp [Pssh.init], by simpa [Pssh.init] using hnd, by simp [Pssh.init]⟩

/-- Claim C3: for any construction host list `H` (without duplicates) and any
sequence of `exec`/`exec_cmd_list` calls, after every call the reachable and
unreachable sets are disjoint, duplicate-free, and their union is a
permutation of `H`; and a host that is unreachable at any point stays
unreachable and outside the reachable set for the rest of the instance
lifetime. -/
theorem host_sets_invariant (H : List String) (so : Bool) (hnd : H.Nodup)
    (l₁ l₂ : List CallBehavior) :
    runCalls (Pssh.init H so) (l₁ ++ l₂) =
      runCalls (runCalls (Pssh.init H so) l₁) l₂ ∧
    Integrity H (runCalls (Pssh.init H so) l₁) ∧
    Integrity H (runCalls (runCalls (Pssh.init H so) l₁) l₂) ∧
    (∀ h ∈ (runCalls (Pssh.init H so) l₁).unreachable_hosts,
      h ∈ (runCalls (runCalls (Pssh.init H so) l₁) l₂).unreachable_hosts ∧
      h ∉ (runCalls (runCalls (Pssh.init H so) l₁) l₂).reachable_hosts) := by
  have h0 := init_integrity (H := H) hnd so
  have h1 := runCalls_integrity l₁ _ h0
  have h2 := runCalls_integrity l₂ _ h1.1
  refine ⟨runCalls_append _ _ _, h1.1, h2.1, fun h hm => ⟨h2.2 h hm, fun hr => ?_⟩⟩
  exact h2.1.2.2 hr (h2.2 h hm)

theorem host_sets_invariant_witness :
    (["host1", "host2"] : List String).Nodup ∧
    (runCalls (Pssh.init ["host1", "host2"] false) ([sampleBehavior] ++ []) =
      runCalls (runCalls (Pssh.init ["host1", "host2"] false) [sampleBehavior]) [] ∧
    Integrity ["host1", "host2"]
      (runCalls (Pssh.init ["host1", "host2"] false) [sampleBehavior]) ∧
    Integrity ["host1", "host2"]
      (runCalls (runCalls (Pssh.init ["host1", "host2"] false) [sampleBehavior]) []) ∧
    (∀ h ∈ (runCalls (Pssh.init ["host1", "host2"] false) [sampleBehavior]).unreachable_hosts,
      h ∈ (runCalls (runCalls (Pssh.init ["host1", "host2"] false) [sampleBehavior])
          []).unreachable_hosts ∧
      h ∉ (runCalls (runCalls (Pssh.init ["host1", "host2"] false) [sampleBehavior])
          []).reachable_hosts)) :=
  ⟨by decide, host_sets_invariant ["host1", "host2"] false (by decide) [sampleBehavior] []⟩

/-- Claim C4: under `stop_on_errors=false`, a pruned connection-class failure
yields exactly `"<text>\n\nABORT: Host Unreachable Error"`, a pruned
timeout-class failure yields exactly
`"<text>\nABORT: Timeout Error in Host: <host>\n\nABORT: Host Unreachable Error"`
(the extra line only in the timeout case), and a host whose probe reports it
reachable is not pruned and gets the raw exception text. -/
theorem failure_sentinels (st : Pssh) (outs : List HostOutput)
    (probe : String → Bool) (hso : st.stop_on_errors = false) :
    ∃ m, (st.exec outs probe).res = .ok m ∧
      (∀ o ∈ outs, ∀ msg, o.exc = some (.connError msg) → probe o.host = true →
        (o.host, msg ++ "\n\nABORT: Host Unreachable Error") ∈ m) ∧
      (∀ o ∈ outs, ∀ msg, o.exc = some (.timeout msg) → probe o.host = true →
        (o.host, msg ++ "\nABORT: Timeout Error in Host: " ++ o.host ++
          "\n\nABORT: Host Unreachable Error") ∈ m) ∧
      (∀ o ∈ outs, ∀ e, o.exc = some e → probe o.host = false →
        (o.host, e.text) ∈ m ∧
        o.host ∉ prunedHosts probe outs ∧
        (o.host ∈ st.reachable_hosts →
          o.host ∈ (st.exec outs probe).state.reachable_hosts)) := by
  refine ⟨outs.map fun o => (o.host, hostResult probe o), by simp [Pssh.exec, hso],
    ?_, ?_, ?_⟩
  · intro o ho msg hexc hprobe
    have : hostResult probe o = msg ++ "\n\nABORT: Host Unreachable Error" := by
      simp [hostResult, hexc, hprobe]
    exact this ▸ List.mem_map_of_mem (fun o => (o.host, hostResult probe o)) ho
  · intro o ho msg hexc hprobe
    have : hostResult probe o = msg ++ "\nABORT: Timeout Error in Host: " ++
        o.host ++ "\n\nABORT: Host Unreachable Error" := by
      simp [hostResult, hexc, hprobe]
    exact this ▸ List.mem_map_of_mem (fun o => (o.host, hostResult probe o)) ho
  · intro o ho e hexc hprobe
    have hnp : o.host ∉ prunedHosts probe outs := by
      intro hmem
      exact absurd (mem_prunedHosts_probe hmem) (by simp [hprobe])
    have hres : hostResult probe o = e.text := by
      simp [hostResult, hexc, hprobe]
    refine ⟨hres ▸ List.mem_map_of_mem (fun o => (o.host, hostResult probe o)) ho,
      hnp, fun hreach => ?_⟩
    simp only [Pssh.exec, hso, if_false, Bool.false_eq_true, Pssh.prune]
    exact List.mem_filter.mpr ⟨hreach, by simpa using hnp⟩

theorem failure_sentinels_witness :
    sampleFalse.stop_on_errors = false ∧
    (∃ m, (sampleFalse.exec sampleOuts (fun h => h == "host2")).res = .ok m ∧
      (∀ o ∈ sampleOuts, ∀ msg, o.exc = some (.connError msg) →
        (fun h => h == "host2") o.host = true →
        (o.host, msg ++ "\n\nABORT: Host Unreachable Error") ∈ m) ∧
      (∀ o ∈ sampleOuts, ∀ msg, o.exc = some (.timeout msg) →
        (fun h => h == "host2") o.host = true →
        (o.host, msg ++ "\nABORT: Timeout Error in Host: " ++ o.host ++
          "\n\nABORT: Host Unreachable Error") ∈ m) ∧
      (∀ o ∈ sampleOuts, ∀ e, o.exc = some e →
        (fun h => h == "host2") o.host = false →
        (o.host, e.text) ∈ m ∧
        o.host ∉ prunedHosts (fun h => h == "host2") sampleOuts ∧
        (o.host ∈ sampleFalse.reachable_hosts →
          o.host ∈ (sampleFalse.exec sampleOuts
            (fun h => h == "host2")).state.reachable_hosts))) :=
  ⟨rfl, failure_sentinels sampleFalse sampleOuts (fun h => h == "host2") rfl⟩

end PsshSpec

namespace CvsContainer

/-- Claim C5 (code divergence): while no container is running
(`container_id = None`), `exec` raises the
`RuntimeError("No containers running. Call setup_containers() first.")`
the claim describes, but `exec_on_head` performs no such check: it runs
`sudo docker exec None <cmd>` on the head host instead of raising. -/
theorem exec_not_launched_guard_asymmetry (st : COrch) (cmd : String)
    (hosts : Option (List String)) (hid : st.container_id = none) :
    ContainerOrchestrator_exec st cmd hosts =
      .error (.runtimeError "No containers running. Call setup_containers() first.") ∧
    ContainerOrchestrator_exec_on_head st cmd =
      SshCall.headHost ("sudo docker exec None " ++ cmd) := by
  constructor
  · simp [ContainerOrchestrator_exec, hid]
  · simp [ContainerOrchestrator_exec_on_head, DockerRuntime_exec_on_head, hid,
      pyFormatOpt]

theorem exec_not_launched_guard_asymmetry_witness :
    ({ container_config := externalCfg, container_id := none } : COrch).container_id
        = none ∧
    (ContainerOrchestrator_exec
        { container_config := externalCfg, container_id := none } "echo hi" none =
      .error (.runtimeError "No containers running. Call setup_containers() first.") ∧
    ContainerOrchestrator_exec_on_head
        { container_config := externalCfg, container_id := none } "echo hi" =
      SshCall.headHost "sudo docker exec None echo hi") :=
  ⟨rfl, exec_not_launched_guard_asymmetry
    { container_config := externalCfg, container_id := none } "echo hi" none rfl⟩

/-- Claim C6 (code divergence): with `enabled=true` and `launch=false`
(externally managed containers) and a recorded `container_id`,
`teardown_containers` does NOT skip: it issues the force-removal
`sudo docker rm -f <name>` on every host and returns that removal's status —
here `false`, since the sample oracle reports a nonzero exit.  The skip
guard in the source tests `launch=true` instead. -/
theorem teardown_externally_managed_removes :
    (ContainerOrchestrator_teardown_containers
        { container_config := externalCfg, container_id := some "c1" }
        sampleEnv).calls =
      [SshCall.allHosts "sudo docker rm -f c1 2>/dev/null || true"] ∧
    (ContainerOrchestrator_teardown_containers
        { container_config := externalCfg, container_id := some "c1" }
        sampleEnv).success = false ∧
    (ContainerOrchestrator_teardown_containers
        { container_config := { externalCfg with launch := true },
          container_id := some "c1" } sampleEnv) =
      { success := true,
        state := { container_config := { externalCfg with launch := true },
                   container_id := some "c1" },
        calls := [] } := by
  refine ⟨rfl, rfl, rfl⟩

end CvsContainer

namespace CvsContainer

/-- Claim C7 (code divergence): with `enabled=true` and `launch=false`,
`setup_containers` can never return the verification verdict the claim
describes: `verify_containers_running` reads its host results from a
NON-detailed exec (plain strings) yet calls `.get("exit_code")` on them, so
on any non-empty host set it raises `AttributeError` — even when a
container with the expected name is running on every host. -/
theorem setup_verify_raises_attribute_error (st : COrch) (env : ClusterEnv)
    (local_user img : String)
    (hen : st.container_config.enabled = true)
    (hl : st.container_config.launch = false)
    (him : st.container_config.image = some img)
    (hne : env.allExec
      (ps_cmd (get_container_name st.container_config img local_user)) ≠ []) :
    setup_containers st env local_user =
      .error (.attributeError "str object has no attribute get (exit_code)") := by
  simp only [setup_containers, hen, hl, him, Bool.not_true, Bool.false_eq_true,
    if_false]
  unfold verify_containers_running
  cases hres : env.allExec (ps_cmd (get_container_name st.container_config img local_user)) with
  | nil => exact absurd hres hne
  | cons p rest =>
    obtain ⟨h, o⟩ := p
    simp [verifyFold, verify_check_host, strGet, hres, Except.instMonad,
      Except.bind]

theorem setup_verify_raises_attribute_error_witness :
    ({ container_config := externalCfg, container_id := none } : COrch).container_config.enabled = true ∧
    ({ container_config := externalCfg, container_id := none } : COrch).container_config.launch = false ∧
    ({ container_config := externalCfg, container_id := none } : COrch).container_config.image = some "rocm/cvs:latest" ∧
    sampleEnv.allExec
      (ps_cmd (get_container_name externalCfg "rocm/cvs:latest" "user")) ≠ [] ∧
    setup_containers { container_config := externalCfg, container_id := none }
        sampleEnv "user" =
      .error (.attributeError "str object has no attribute get (exit_code)") :=
  ⟨rfl, rfl, rfl, by decide,
    setup_verify_raises_attribute_error
      { container_config := externalCfg, container_id := none } sampleEnv
      "user" "rocm/cvs:latest" rfl rfl rfl (by decide)⟩

end CvsContainer

namespace CvsBaremetal

theorem string_append_assoc (a b c : String) : (a ++ b) ++ c = a ++ (b ++ c) := by
  apply String.ext
  simp

theorem host_file_params_acc (r : Nat) (l : List String) :
    ∀ acc : String,
      l.foldl (fun a h => a ++ h ++ " slots=" ++ toString r ++ "\n") acc =
        acc ++ hostfile_concat r l := by
  induction l with
  | nil =>
    intro acc
    simp [hostfile_concat, String.append_empty]
  | cons h t ih =>
    intro acc
    simp only [List.foldl_cons]
    rw [ih]
    simp only [hostfile_concat, hostfile_line, string_append_assoc]

/-- Claim C9: `build_mpi_cmd` writes a hostfile whose content is exactly one
`"<host> slots=<ranks_per_host>"` line per host of `mpi_hosts`, the write
happens through the fixed head-node commands, and without an explicit
global-rank override the `--np` argument is
`len(mpi_hosts) * ranks_per_host`. -/
theorem build_mpi_cmd_hostfile_and_default_ranks (ssh_port : Nat)
    (rank_cmd : String) (mpi_hosts : List String) (ranks_per_host : Nat)
    (env_vars : List (String × String)) (mpi_install_dir : String)
    (mpi_extra_args : List String) :
    (build_mpi_cmd ssh_port rank_cmd mpi_hosts ranks_per_host env_vars
      mpi_install_dir mpi_extra_args none).hostfile_content =
        hostfile_concat ranks_per_host mpi_hosts ∧
    (build_mpi_cmd ssh_port rank_cmd mpi_hosts ranks_per_host env_vars
      mpi_install_dir mpi_extra_args none).head_cmds =
        ["sudo rm -f /tmp/mpi_hosts.txt",
         "bash -c \x27echo \"" ++ hostfile_concat ranks_per_host mpi_hosts ++
           "\" > /tmp/mpi_hosts.txt\x27"] ∧
    (build_mpi_cmd ssh_port rank_cmd mpi_hosts ranks_per_host env_vars
      mpi_install_dir mpi_extra_args none).runner_args.take 2 =
        ["--np", toString (mpi_hosts.length * ranks_per_host)] := by
  have hhf : host_file_params mpi_hosts ranks_per_host =
      hostfile_concat ranks_per_host mpi_hosts := by
    have h := host_file_params_acc ranks_per_host mpi_hosts ""
    rwa [String.empty_append] at h
  refine ⟨?_, ?_, ?_⟩
  · simpa [build_mpi_cmd] using hhf
  · simp [build_mpi_cmd, hhf]
  · simp [build_mpi_cmd, mpi_runner_args]

end CvsBaremetal

namespace CvsRetry

theorem countP_attemptPrologue_call (kappa : Type) (cfg : RetryConfig) (i : Nat) :
    (attemptPrologue kappa cfg i).countP RetryEvent.isCall = 0 := by
  unfold attemptPrologue
  split <;> simp [List.countP_cons, RetryEvent.isCall]

theorem countP_attemptPrologue_cleanup (kappa : Type) (cfg : RetryConfig) (i : Nat) :
    (attemptPrologue kappa cfg i).countP RetryEvent.isCleanup = 0 := by
  unfold attemptPrologue
  split <;> simp [List.countP_cons, RetryEvent.isCleanup]

theorem countP_attemptPrologue_reset (kappa : Type) (cfg : RetryConfig) (i : Nat) :
    (attemptPrologue kappa cfg i).countP RetryEvent.isReset = 1 := by
  unfold attemptPrologue
  split <;> simp [List.countP_cons, RetryEvent.isReset]

theorem mem_attemptPrologue_not_cleanup {kappa : Type} {cfg : RetryConfig}
    {i : Nat} {e : RetryEvent kappa} (hmem : e ∈ attemptPrologue kappa cfg i) :
    e.isCleanup = false := by
  unfold attemptPrologue at hmem
  rcases List.mem_cons.mp hmem with rfl | hmem2
  · rfl
  · split at hmem2
    · rw [List.mem_singleton] at hmem2
      subst hmem2
      rfl
    · simp at hmem2

theorem countP_allFailTrace_call (kappa : Type) (cfg : RetryConfig) (kw : kappa) :
    ∀ count start,
      (allFailTrace kappa cfg kw start count).countP RetryEvent.isCall = count := by
  intro count
  induction count with
  | zero => intro start; simp [allFailTrace]
  | succ n ih =>
    intro start
    simp [allFailTrace, List.countP_append, countP_attemptPrologue_call,
      List.countP_cons, RetryEvent.isCall, ih]

theorem countP_allFailTrace_cleanup (kappa : Type) (cfg : RetryConfig) (kw : kappa) :
    ∀ count start,
      (allFailTrace kappa cfg kw start count).countP RetryEvent.isCleanup = count := by
  intro count
  induction count with
  | zero => intro start; simp [allFailTrace]
  | succ n ih =>
    intro start
    simp [allFailTrace, List.countP_append, countP_attemptPrologue_cleanup,
      List.countP_cons, RetryEvent.isCleanup, ih]

theorem countP_allFailTrace_reset (kappa : Type) (cfg : RetryConfig) (kw : kappa) :
    ∀ count start,
      (allFailTrace kappa cfg kw start count).countP RetryEvent.isReset = count := by
  intro count
  induction count with
  | zero => intro start; simp [allFailTrace]
  | succ n ih =>
    intro start
    simp [allFailTrace, List.countP_append, countP_attemptPrologue_reset,
      List.countP_cons, RetryEvent.isReset, ih]
    omega

theorem mem_allFailTrace_cleanup (kappa : Type) (cfg : RetryConfig) (kw : kappa) :
    ∀ count start, ∀ e ∈ allFailTrace kappa cfg kw start count,
      e.isCleanup = true → e = RetryEvent.cleanup kw cfg := by
  intro count
  induction count with
  | zero => intro start e hmem; simp [allFailTrace] at hmem
  | succ n ih =>
    intro start e hmem hcl
    simp only [allFailTrace, List.append_assoc, List.mem_append] at hmem
    rcases hmem with hpre | hmem
    · rw [mem_attemptPrologue_not_cleanup hpre] at hcl
      exact absurd hcl (by simp)
    rcases hmem with hmid | hrest
    · rcases List.mem_cons.mp hmid with rfl | hmid2
      · simp [RetryEvent.isCleanup] at hcl
      · rcases List.mem_singleton.mp hmid2 with rfl
        rfl
    · exact ih start.succ e hrest hcl

theorem retryGo_all_fail {alpha kappa : Type} (outcome : Nat → AttemptOutcome alpha)
    (kw : kappa) (cfg : RetryConfig) (total : Nat)
    (res : Nat → alpha) (errs : Nat → List String)
    (hout : ∀ i, outcome i = .returns (res i) (errs i))
    (hne : ∀ i, errs i ≠ []) :
    ∀ fuel attempt,
      retryGo outcome kw cfg total attempt (fuel + 1) =
        (allFailTrace kappa cfg kw attempt (fuel + 1),
          .error (.exhausted
            { total_attempts := total,
              error_count := (errs (attempt + fuel)).length,
              errors := errs (attempt + fuel) })) := by
  intro fuel
  induction fuel with
  | zero =>
    intro attempt
    have hem : (errs attempt).isEmpty = false := by
      cases h : errs attempt with
      | nil => exact absurd h (hne attempt)
      | cons a l => rfl
    rw [retryGo]
    simp [hout attempt, hem, allFailTrace]
  | succ f ih =>
    intro attempt
    have hem : (errs attempt).isEmpty = false := by
      cases h : errs attempt with
      | nil => exact absurd h (hne attempt)
      | cons a l => rfl
    have harith : attempt + 1 + f = attempt + (f + 1) := by omega
    rw [retryGo]
    simp only [hout attempt, hem, Bool.false_eq_true, if_false, Nat.succ_ne_zero,
      ite_false]
    rw [ih (attempt + 1)]
    simp [allFailTrace, harith]

/-- Claim C8: with retry enabled and `max_retries = N`, when the shared
failure signal is non-empty after every attempt the wrapped operation is
invoked exactly `N + 1` times, the cleanup hook runs after each of the
`N + 1` failed attempts and always receives the call kwargs and the retry
config, the failure signal is reset at the start of every attempt (`N + 1`
resets, the trace is exactly the per-attempt prologue/call/cleanup pattern),
and the final aggregate error names the total attempt count `N + 1` together
with the collected failure records. -/
theorem retry_enabled_exhaustion {alpha kappa : Type}
    (outcome : Nat → AttemptOutcome alpha) (kw : kappa) (cfg : RetryConfig)
    (hen : cfg.cvs_retry_on_failure = true)
    (res : Nat → alpha) (errs : Nat → List String)
    (hout : ∀ i, outcome i = .returns (res i) (errs i))
    (hne : ∀ i, errs i ≠ []) :
    (retryWrapper outcome kw (some cfg)).1 =
      allFailTrace kappa cfg kw 0 (cfg.cvs_max_retries + 1) ∧
    (retryWrapper outcome kw (some cfg)).1.countP RetryEvent.isCall =
      cfg.cvs_max_retries + 1 ∧
    (retryWrapper outcome kw (some cfg)).1.countP RetryEvent.isCleanup =
      cfg.cvs_max_retries + 1 ∧
    (∀ e ∈ (retryWrapper outcome kw (some cfg)).1,
      e.isCleanup = true → e = RetryEvent.cleanup kw cfg) ∧
    (retryWrapper outcome kw (some cfg)).1.countP RetryEvent.isReset =
      cfg.cvs_max_retries + 1 ∧
    (retryWrapper outcome kw (some cfg)).2 =
      .error (.exhausted
        { total_attempts := cfg.cvs_max_retries + 1,
          error_count := (errs cfg.cvs_max_retries).length,
          errors := errs cfg.cvs_max_retries }) := by
  have hgo := retryGo_all_fail outcome kw cfg (cfg.cvs_max_retries + 1) res errs
    hout hne cfg.cvs_max_retries 0
  have hw : retryWrapper outcome kw (some cfg) =
      retryGo outcome kw cfg (cfg.cvs_max_retries + 1) 0 (cfg.cvs_max_retries + 1) := by
    simp [retryWrapper, hen, executeWithRetry]
  rw [hw, hgo]
  refine ⟨by simp, ?_, ?_, ?_, ?_, by simp [Nat.zero_add]⟩
  · simp [countP_allFailTrace_call]
  · simp [countP_allFailTrace_cleanup]
  · intro e hmem hcl
    exact mem_allFailTrace_cleanup kappa cfg kw (cfg.cvs_max_retries + 1) 0 e hmem hcl
  · simp [countP_allFailTrace_reset]

theorem retry_enabled_exhaustion_witness :
    sampleRetryCfg.cvs_retry_on_failure = true ∧
    (∀ i, sampleOutcomeFails i =
      .returns ((fun _ => 0) i) ((fun _ => ["rccl bandwidth below threshold"]) i)) ∧
    (∀ i : Nat, (fun _ => ["rccl bandwidth below threshold"]) i ≠ ([] : List String)) ∧
    ((retryWrapper sampleOutcomeFails (7 : Nat) (some sampleRetryCfg)).1.countP
        RetryEvent.isCall = 3 ∧
      (retryWrapper sampleOutcomeFails (7 : Nat) (some sampleRetryCfg)).1.countP
        RetryEvent.isCleanup = 3 ∧
      (retryWrapper sampleOutcomeFails (7 : Nat) (some sampleRetryCfg)).2 =
        .error (.exhausted
          { total_attempts := 3, error_count := 1,
            errors := ["rccl bandwidth below threshold"] })) := by
  refine ⟨rfl, fun i => rfl, fun i => by simp, ?_⟩
  have h := retry_enabled_exhaustion sampleOutcomeFails (7 : Nat) sampleRetryCfg rfl
    (fun _ => 0) (fun _ => ["rccl bandwidth below threshold"]) (fun i => rfl)
    (fun i => by simp)
  exact ⟨h.2.1, h.2.2.1, h.2.2.2.2.2⟩

end CvsRetry

namespace CvsRetry

theorem retryGo_raise {alpha kappa : Type} (outcome : Nat → AttemptOutcome alpha)
    (kw : kappa) (cfg : RetryConfig) (total : Nat)
    (res : Nat → alpha) (errs : Nat → List String) (e : String) :
    ∀ j fuel attempt, j < fuel →
      (∀ i, i < j → outcome (attempt + i) =
          .returns (res (attempt + i)) (errs (attempt + i)) ∧ errs (attempt + i) ≠ []) →
      outcome (attempt + j) = .raises e →
      retryGo outcome kw cfg total attempt fuel =
        (allFailTrace kappa cfg kw attempt j ++
          attemptPrologue kappa cfg (attempt + j) ++ [.call],
         .error (.raised e)) := by
  intro j
  induction j with
  | zero =>
    intro fuel attempt hlt hb hraise
    obtain ⟨f, rfl⟩ : ∃ f, fuel = f + 1 := ⟨fuel - 1, by omega⟩
    rw [retryGo]
    rw [show attempt + 0 = attempt from rfl] at hraise
    simp [hraise, allFailTrace]
  | succ j ih =>
    intro fuel attempt hlt hb hraise
    obtain ⟨f, rfl⟩ : ∃ f, fuel = f + 1 := ⟨fuel - 1, by omega⟩
    have h0 := hb 0 (by omega)
    rw [show attempt + 0 = attempt from rfl] at h0
    have hem : (errs attempt).isEmpty = false := by
      cases h : errs attempt with
      | nil => exact absurd h h0.2
      | cons a l => rfl
    rw [retryGo]
    simp only [h0.1, hem, Bool.false_eq_true, if_false]
    rw [if_neg (by omega : ¬f = 0)]
    have hb2 : ∀ i, i < j → outcome (attempt + 1 + i) =
        .returns (res (attempt + 1 + i)) (errs (attempt + 1 + i)) ∧
        errs (attempt + 1 + i) ≠ [] := by
      intro i hi
      have h := hb (i + 1) (by omega)
      rwa [show attempt + (i + 1) = attempt + 1 + i by omega] at h
    have hraise2 : outcome (attempt + 1 + j) = .raises e := by
      rwa [show attempt + (j + 1) = attempt + 1 + j by omega] at hraise
    rw [ih f (attempt + 1) (by omega) hb2 hraise2]
    have harith : attempt + 1 + j = attempt + (j + 1) := by omega
    simp [allFailTrace, harith]

/-- Claim C10: with retry enabled, an exception raised by the wrapped
operation itself on any attempt propagates immediately to the caller: the
cleanup hook does not run for that attempt (the raising call is the last
trace event and there are only as many cleanups as earlier failed attempts)
and no further attempts are made, regardless of the remaining retry
budget. -/
theorem retry_operation_exception_propagates {alpha kappa : Type}
    (outcome : Nat → AttemptOutcome alpha) (kw : kappa) (cfg : RetryConfig)
    (hen : cfg.cvs_retry_on_failure = true)
    (k : Nat) (hk : k ≤ cfg.cvs_max_retries)
    (res : Nat → alpha) (errs : Nat → List String)
    (hb : ∀ i, i < k → outcome i = .returns (res i) (errs i) ∧ errs i ≠ [])
    (e : String) (hraise : outcome k = .raises e) :
    (retryWrapper outcome kw (some cfg)).2 = .error (.raised e) ∧
    (retryWrapper outcome kw (some cfg)).1.countP RetryEvent.isCall = k + 1 ∧
    (retryWrapper outcome kw (some cfg)).1.countP RetryEvent.isCleanup = k ∧
    (retryWrapper outcome kw (some cfg)).1.getLast? = some RetryEvent.call := by
  have hb0 : ∀ i, i < k → outcome (0 + i) =
      .returns (res (0 + i)) (errs (0 + i)) ∧ errs (0 + i) ≠ [] := by
    intro i hi
    rw [Nat.zero_add]
    exact hb i hi
  have hraise0 : outcome (0 + k) = .raises e := by
    rw [Nat.zero_add]
    exact hraise
  have hgo := retryGo_raise outcome kw cfg (cfg.cvs_max_retries + 1) res errs e
    k (cfg.cvs_max_retries + 1) 0 (by omega) hb0 hraise0
  have hw : retryWrapper outcome kw (some cfg) =
      retryGo outcome kw cfg (cfg.cvs_max_retries + 1) 0 (cfg.cvs_max_retries + 1) := by
    simp [retryWrapper, hen, executeWithRetry]
  rw [hw, hgo]
  refine ⟨rfl, ?_, ?_, ?_⟩
  · simp [List.countP_append, countP_allFailTrace_call,
      countP_attemptPrologue_call, List.countP_cons, RetryEvent.isCall]
  · simp [List.countP_append, countP_allFailTrace_cleanup,
      countP_attemptPrologue_cleanup, List.countP_cons, RetryEvent.isCleanup]
  · simp

theorem retry_operation_exception_propagates_witness :
    sampleRetryCfg.cvs_retry_on_failure = true ∧
    1 ≤ sampleRetryCfg.cvs_max_retries ∧
    (∀ i, i < 1 → sampleOutcomeRaises i =
      .returns ((fun _ => 0) i) ((fun _ => ["rccl bandwidth below threshold"]) i) ∧
      (fun _ => ["rccl bandwidth below threshold"]) i ≠ ([] : List String)) ∧
    sampleOutcomeRaises 1 = .raises "boom" ∧
    ((retryWrapper sampleOutcomeRaises (7 : Nat) (some sampleRetryCfg)).2 =
        .error (.raised "boom") ∧
      (retryWrapper sampleOutcomeRaises (7 : Nat) (some sampleRetryCfg)).1.countP
        RetryEvent.isCall = 2 ∧
      (retryWrapper sampleOutcomeRaises (7 : Nat) (some sampleRetryCfg)).1.countP
        RetryEvent.isCleanup = 1 ∧
      (retryWrapper sampleOutcomeRaises (7 : Nat) (some sampleRetryCfg)).1.getLast? =
        some RetryEvent.call) := by
  refine ⟨rfl, by decide, ?_, rfl, ?_⟩
  · intro i hi
    have : i = 0 := by omega
    subst this
    exact ⟨rfl, by simp⟩
  · exact retry_operation_exception_propagates sampleOutcomeRaises (7 : Nat)
      sampleRetryCfg rfl 1 (by decide) (fun _ => 0)
      (fun _ => ["rccl bandwidth below threshold"])
      (fun i hi => by
        have : i = 0 := by omega
        subst this
        exact ⟨rfl, by simp⟩) "boom" rfl

end CvsRetry
